import Mathlib

/-!
Verification of `download_tdocs.py` (3GPP TDoc portal pipeline).

The script is orchestration over the filesystem and three external
collaborators (HTTP, `zipfile`, and the `docling` document converter).
We embed it shallowly:

* the filesystem is an explicit state (`FS`): an association list of
  file paths to contents plus a list of existing directories;
* each collaborator is an input oracle describing what the external
  call would return or raise on this run;
* each worker function of the script becomes a pure Lean function from
  the pre-state and the oracles to the produced item outcome and the
  post-state.  Exceptions that the Python code catches are oracle
  outcomes turned into `fail` results; the one place where the code
  lets an exception escape (`download_file_worker` outside of
  `requests.RequestException`) is an `Except.error` result.
-/

namespace TdocPortal

/-- Lookup in an association list of paths to contents. -/
def lookupFile : List (String × String) → String → Option String
  | [], _ => none
  | e :: t, p => if e.1 = p then some e.2 else lookupFile t p

/-- Remove every entry with key `p` from an association list. -/
def eraseKey : List (String × String) → String → List (String × String)
  | [], _ => []
  | e :: t, p => if e.1 = p then eraseKey t p else e :: eraseKey t p

/-- String membership in a list. -/
def memStr : List String → String → Bool
  | [], _ => false
  | d :: t, p => if d = p then true else memStr t p

/-- A filesystem state: files (path to content) and existing directories.
Contents are modelled as strings of bytes; sizes are string lengths. -/
structure FS where
  files : List (String × String)
  dirs : List String
deriving DecidableEq, Repr

/-- Python `os.path.isfile`-style existence: a file is present at `p`. -/
def FS.fileExists (fs : FS) (p : String) : Bool :=
  (lookupFile fs.files p).isSome

/-- A directory is present at `p`. -/
def FS.dirExists (fs : FS) (p : String) : Bool :=
  memStr fs.dirs p

/-- Python `os.path.exists`: a file or a directory is present at `p`. -/
def FS.pathExists (fs : FS) (p : String) : Bool :=
  fs.fileExists p || fs.dirExists p

/-- Content of the file at `p`, when a file is present there. -/
def FS.fileContent (fs : FS) (p : String) : Option String :=
  lookupFile fs.files p

/-- Python `os.path.getsize` for a file written by the model (0 when absent). -/
def FS.getsize (fs : FS) (p : String) : Nat :=
  ((lookupFile fs.files p).getD "").length

/-- Boolean string-prefix test, via the underlying character lists. -/
def strPrefixOf (pre s : String) : Bool :=
  pre.toList.isPrefixOf s.toList

/-- Truthiness of `os.listdir p`: some entry lives strictly under
directory `p` (a file or a directory whose path extends `p ++ "/"`). -/
def FS.dirNonempty (fs : FS) (p : String) : Bool :=
  fs.files.any (fun e => strPrefixOf (p ++ "/") e.1) ||
    fs.dirs.any (fun d => strPrefixOf (p ++ "/") d)

/-- Write (create or overwrite) the file at `p` with content `c`. -/
def FS.writeFile (fs : FS) (p c : String) : FS :=
  { fs with files := (p, c) :: eraseKey fs.files p }

/-- Python `os.remove p`. -/
def FS.removeFile (fs : FS) (p : String) : FS :=
  { fs with files := eraseKey fs.files p }

/-- Python `Path(p).mkdir(parents=True, exist_ok=True)`, restricted to the one
directory the script later inspects (parents are never inspected). -/
def FS.mkdirp (fs : FS) (p : String) : FS :=
  if memStr fs.dirs p then fs else { fs with dirs := p :: fs.dirs }

/-! Module-level configuration constants of the script. -/

def BASE_URL : String := "https://www.3gpp.org/ftp/meetings_3gpp_sync/RAN1/Docs/"
def DOWNLOAD_DIR : String := "artifacts/tdocs"
def EXTRACT_DIR : String := "artifacts/extracted"
def OUTPUT_DIR : String := "artifacts/output"

/-- Python `os.path.join` with the separator used throughout the script. -/
def joinPath (a b : String) : String := a ++ "/" ++ b

/-- The final path component (after the last slash). -/
def lastComponent (name : String) : String :=
  String.mk ((name.toList.reverse.takeWhile (fun c => c ≠ '/')).reverse)

/-- Python `pathlib.Path(name).stem`: the final component without its suffix;
the suffix is the last dot onward, provided that dot is neither the
first nor the last character of the component. -/
def pathStem (name : String) : String :=
  let base := lastComponent name
  let cs := base.toList
  match cs.reverse.findIdx? (fun c => c = '.') with
  | none => base
  | some j =>
    let i := cs.length - 1 - j
    if 0 < i ∧ i < cs.length - 1 then String.mk (cs.take i) else base

/-- Status field of an item outcome. -/
inductive Status where
  | success
  | skip
  | fail
deriving DecidableEq, Repr

/-- Message field of an item outcome.  The success message of a download
carries the byte count whose MiB value the script formats; all other
messages are literal text. -/
inductive Msg where
  | text (s : String)
  | sizeMB (bytes : Nat)
deriving DecidableEq, Repr

/-- The dictionary with keys filename, status and message returned
by every worker. -/
structure Outcome where
  filename : String
  status : Status
  message : Msg
deriving DecidableEq, Repr

/-! Derived paths, shared between the workers and the theorems. -/

/-- The path `filepath = os.path.join(DOWNLOAD_DIR, filename)`. -/
def archivePath (filename : String) : String := joinPath DOWNLOAD_DIR filename

/-- The path `extract_path = os.path.join(EXTRACT_DIR, Path(filename).stem)`. -/
def extractPath (filename : String) : String := joinPath EXTRACT_DIR (pathStem filename)

/-- The name `output_base`, of the form tdoc_name, underscore, base_name,
for a `doc_info` triple
`(doc_path, tdoc_name, doc_filename)`. -/
def convOutputBase (di : String × String × String) : String :=
  di.2.1 ++ "_" ++ pathStem di.2.2

/-- The path `html_path` under the html output folder. -/
def convHtmlPath (di : String × String × String) : String :=
  joinPath (joinPath OUTPUT_DIR "html") (convOutputBase di ++ ".html")

/-- The path `md_path` under the markdown output folder. -/
def convMdPath (di : String × String × String) : String :=
  joinPath (joinPath OUTPUT_DIR "markdown") (convOutputBase di ++ ".md")

/-! ### Download stage -/

/-- What `requests.get(url, stream=True)` followed by the streamed read
delivers on this run.  `statusError` is the `HTTPError` text raised by
`raise_for_status` if any; `contentLength` the parsed `content-length`
header when the header is present; `chunks` the body chunks yielded by
`iter_content` before any failure; `streamError` the text of a
`RequestException` raised during iteration after those chunks. -/
structure HttpResponse where
  statusError : Option String
  contentLength : Option Nat
  chunks : List String
  streamError : Option String

/-- Result of issuing the GET itself: a connection-level
`RequestException`, or a response object. -/
inductive ReqResult where
  | connError (msg : String)
  | response (r : HttpResponse)

/-- Result of a worker that returns an outcome and leaves a filesystem. -/
structure WorkerResult where
  outcome : Outcome
  fs : FS
deriving DecidableEq, Repr

/-- The function `download_file_worker`.  `net` is the HTTP oracle; `writeErr`, when
`some e`, is an `OSError` with text `e` raised when the local file is opened
— such an error is not a `requests.RequestException`, so the `except`
clause does not catch it and it propagates out of the worker
(`Except.error`).  A `RequestException` anywhere (connection, HTTP
status, or mid-stream) is caught: the handler removes the partially
written file when present and returns a `fail` outcome. -/
def download_file_worker (fs : FS) (net : String → ReqResult)
    (writeErr : Option String) (filename : String) :
    Except String WorkerResult :=
  let filepath := archivePath filename
  if fs.pathExists filepath then
    .ok ⟨⟨filename, .skip, .text "Already exists"⟩, fs⟩
  else
    let failCleanup := fun (e : String) (fsNow : FS) =>
      let fs1 := if fsNow.pathExists filepath then fsNow.removeFile filepath else fsNow
      Except.ok (⟨⟨filename, .fail, .text e⟩, fs1⟩ : WorkerResult)
    match net (BASE_URL ++ filename) with
    | .connError e => failCleanup e fs
    | .response r =>
      match r.statusError with
      | some e => failCleanup e fs
      | none =>
        let total_size := r.contentLength.getD 0
        match writeErr with
        | some e => .error e
        | none =>
          let fs1 := fs.writeFile filepath (String.join r.chunks)
          match r.streamError with
          | some e => failCleanup e fs1
          | none =>
            let size_bytes :=
              if total_size > 0 then total_size else fs1.getsize filepath
            .ok ⟨⟨filename, .success, .sizeMB size_bytes⟩, fs1⟩

/-! ### Extraction stage -/

/-- What `zipfile.ZipFile(filepath).extractall(extract_path)` does with
the bytes of the archive: `badZip` is `zipfile.BadZipFile` raised when the
archive is opened (nothing extracted); `extractError` is any other
exception raised during unpacking, after the entries in `written` were
already placed; `ok` is a full successful extraction. -/
inductive ZipOutcome where
  | badZip
  | extractError (written : List (String × String)) (msg : String)
  | ok (entries : List (String × String))

/-- Write a list of extracted entries (relative name, content) under
directory `dest`. -/
def FS.writeEntries (fs : FS) (dest : String) (entries : List (String × String)) : FS :=
  entries.foldl (fun a e => a.writeFile (joinPath dest e.1) e.2) fs

/-- The function `extract_file_worker`.  `zipOf` is the zip-library oracle, applied
to the content of the archive.  Both skip checks precede any filesystem
mutation; the destination folder is created before the archive is
opened; every exception inside the `try` is caught and becomes a `fail`
outcome. -/
def extract_file_worker (fs : FS) (zipOf : String → ZipOutcome)
    (filename : String) : WorkerResult :=
  let filepath := archivePath filename
  let extract_path := extractPath filename
  if !fs.pathExists filepath then
    ⟨⟨filename, .skip, .text "Not downloaded"⟩, fs⟩
  else if fs.pathExists extract_path && fs.dirNonempty extract_path then
    ⟨⟨filename, .skip, .text "Already extracted"⟩, fs⟩
  else
    let fs1 := fs.mkdirp extract_path
    match zipOf ((fs.fileContent filepath).getD "") with
    | .badZip => ⟨⟨filename, .fail, .text "Invalid ZIP file"⟩, fs1⟩
    | .extractError written e =>
      ⟨⟨filename, .fail, .text e⟩, fs1.writeEntries extract_path written⟩
    | .ok entries =>
      ⟨⟨filename, .success, .text "Extracted"⟩, fs1.writeEntries extract_path entries⟩

/-! ### Conversion stage -/

/-- What `DocumentConverter().convert(doc_path)` followed by the two
exports does on this run: `convError` is an exception raised by the
converter itself; otherwise the exports `export_to_html` and
`export_to_markdown` each either return a string or raise. -/
inductive ConvResult where
  | convError (msg : String)
  | docModel (htmlExport : Except String String) (mdExport : Except String String)

/-- Which external calls the conversion worker performed (the skip path
performs none; an export is recorded as performed even when it raises). -/
structure ConvTrace where
  invokedConverter : Bool
  exportedHtml : Bool
  exportedMd : Bool
deriving DecidableEq, Repr

/-- Result of the conversion worker. -/
structure ConvertResult where
  outcome : Outcome
  fs : FS
  trace : ConvTrace
deriving DecidableEq, Repr

/-- The function `convert_document_worker` on `doc_info = (doc_path, tdoc_name,
doc_filename)`.  `conv` is the docling oracle keyed by `doc_path`.  The
skip check requires both outputs; each export and write is guarded by
its own existence check (the markdown check runs after the HTML write);
every exception inside the `try` is caught and becomes a `fail`
outcome, with no cleanup of files already written. -/
def convert_document_worker (fs : FS) (conv : String → ConvResult)
    (di : String × String × String) : ConvertResult :=
  let doc_filename := di.2.2
  let html_path := convHtmlPath di
  let md_path := convMdPath di
  if fs.pathExists html_path && fs.pathExists md_path then
    ⟨⟨doc_filename, .skip, .text "Already converted"⟩, fs, ⟨false, false, false⟩⟩
  else
    match conv di.1 with
    | .convError e => ⟨⟨doc_filename, .fail, .text e⟩, fs, ⟨true, false, false⟩⟩
    | .docModel he me =>
      let mdStage := fun (fsNow : FS) (didHtml : Bool) =>
        if fsNow.pathExists md_path then
          (⟨⟨doc_filename, .success, .text "Converted"⟩, fsNow,
            ⟨true, didHtml, false⟩⟩ : ConvertResult)
        else
          match me with
          | .error e => ⟨⟨doc_filename, .fail, .text e⟩, fsNow, ⟨true, didHtml, true⟩⟩
          | .ok mdc =>
            ⟨⟨doc_filename, .success, .text "Converted"⟩,
              fsNow.writeFile md_path mdc, ⟨true, didHtml, true⟩⟩
      if fs.pathExists html_path then
        mdStage fs false
      else
        match he with
        | .error e => ⟨⟨doc_filename, .fail, .text e⟩, fs, ⟨true, true, false⟩⟩
        | .ok hc => mdStage (fs.writeFile html_path hc) true

/-! ### Listing fetcher -/

/-- The search `re.search` for the pattern R1- + 7 digits + .zip anchored at
the end of `href`.  The pattern has fixed
length 14 and is anchored at the end, so a match exists exactly when
the last 14 characters of `href` are `R1-`, seven (ASCII) digits, and
`.zip`; the captured group is that suffix. -/
def tdocSearch (href : String) : Option String :=
  let cs := href.toList
  let n := cs.length
  if n < 14 then none
  else
    let suf := cs.drop (n - 14)
    if suf.take 3 = ['R', '1', '-'] &&
        ((suf.drop 3).take 7).all (fun c => c.isDigit) &&
        suf.drop 10 = ['.', 'z', 'i', 'p'] then
      some (String.mk suf)
    else none

/-- The link-collecting loop of `fetch_document_list`, over the `href`
attributes of the anchors of the page: append the captured filename of every
href the pattern matches. -/
def fetch_links (hrefs : List String) : List String :=
  hrefs.foldl
    (fun links href =>
      match tdocSearch href with
      | some filename => links ++ [filename]
      | none => links)
    []

/-- The function `fetch_document_list`: the GET (modelled as `Except`: an error
covers both a `RequestException` and a non-2xx status turned into
`HTTPError` by `raise_for_status`) either aborts the process with
`sys.exit(1)` or yields the hrefs of the page, which are filtered by the
pattern. -/
def fetch_document_list (resp : Except String (List String)) :
    Except Nat (List String) :=
  match resp with
  | .error _ => .error 1
  | .ok hrefs => .ok (fetch_links hrefs)

/-! ### Main orchestration (exit behaviour) -/

/-- What `main` decides before/after the stages: the process exit code
and whether the three phases were reached. -/
structure MainResult where
  exitCode : Nat
  stagesRan : Bool
deriving DecidableEq, Repr

/-- Exit behaviour of `main`: `sys.exit(1)` inside
`fetch_document_list` on a fetch error; `sys.exit(1)` when the filtered
list is empty; otherwise the three phases run and `main` returns
normally (exit code 0).  The per-item outcomes produced by the stages
(`dlOuts`, `exOuts`, `cvOuts`) are only tallied and printed — they do
not influence the exit code. -/
def main_exit (resp : Except String (List String))
    (dlOuts exOuts cvOuts : List Outcome) : MainResult :=
  match fetch_document_list resp with
  | .error c => ⟨c, false⟩
  | .ok links =>
    if links.isEmpty then ⟨1, false⟩
    else
      let tally := fun (outs : List Outcome) (st : Status) =>
        (outs.filter (fun o => o.status = st)).length
      let _counts :=
        (tally dlOuts .success, tally dlOuts .skip, tally dlOuts .fail,
          tally exOuts .success, tally exOuts .skip,
          tally cvOuts .success, tally cvOuts .skip)
      ⟨0, true⟩

/-! ### Further definitions used by the claims -/

/-- The text of the `requests.RequestException`, if any, that
`download_file_worker` would encounter past its skip check: the
connection error, else the HTTP status error, else a mid-stream error
(the latter only reachable when no `OSError` interrupts the local
write first). -/
def requestErrorOf (net : String → ReqResult) (writeErr : Option String)
    (url : String) : Option String :=
  match net url with
  | .connError e => some e
  | .response r =>
    match r.statusError with
    | some e => some e
    | none =>
      match writeErr with
      | some _ => none
      | none => r.streamError

/-- Size source as the claim C8 words it: the content-length header
whenever the header is present, otherwise the bytes written. -/
def claimedSizeSource (contentLength : Option Nat) (written : Nat) : Nat :=
  match contentLength with
  | some v => v
  | none => written

/-- The trailing path segment of an href (everything after the last
slash; the whole href when it has no slash). -/
def trailingSegment (href : String) : String :=
  String.mk ((href.toList.reverse.takeWhile (fun c => c ≠ '/')).reverse)

/-- The fixed identifier pattern as a predicate on a whole name:
`R1-`, exactly seven digits, `.zip`. -/
def isTdocName (s : String) : Bool :=
  let cs := s.toList
  cs.length = 14 && cs.take 3 = ['R', '1', '-'] &&
    ((cs.drop 3).take 7).all (fun c => c.isDigit) &&
    cs.drop 10 = ['.', 'z', 'i', 'p']

/-- Keep the first occurrence of each element, in order. -/
def dedupFirstSeen (l : List String) : List String :=
  l.foldl (fun acc x => if memStr acc x then acc else acc ++ [x]) []

/-- Modelled from the words of claim C4 (for comparison against
`fetch_links`): the bare trailing path segments of exactly those hrefs
whose trailing path segment is a TDoc name, in order-preserving
first-seen order. -/
def fetchSpecStated (hrefs : List String) : List String :=
  dedupFirstSeen
    ((hrefs.filter (fun h => isTdocName (trailingSegment h))).map trailingSegment)

/-- Whether an href ends with the TDoc pattern. -/
def endsWithTdoc (h : String) : Bool := (tdocSearch h).isSome

/-- The last `n` characters of a string. -/
def lastChars (n : Nat) (s : String) : String :=
  String.mk (s.toList.drop (s.toList.length - n))

/-! ### Shared concrete inputs for the witnesses -/

/-- A concrete identifier matching the TDoc pattern. -/
def wFilename : String := "R1-2300001.zip"

/-- A concrete `doc_info` triple for the conversion worker. -/
def wDi : String × String × String :=
  ("artifacts/extracted/R1-2300001/doc1.docx", "R1-2300001", "doc1.docx")

/-- A filesystem on which every idempotence marker of `wFilename` and
`wDi` is present: archive downloaded, extraction folder non-empty, both
converted outputs written. -/
def wFS : FS :=
  ⟨[(archivePath wFilename, "PKzipdata"),
    (joinPath (extractPath wFilename) "doc1.docx", "docxdata"),
    (convHtmlPath wDi, "<html></html>"),
    (convMdPath wDi, "# md")],
   [extractPath wFilename]⟩

/-- The empty filesystem. -/
def wFS0 : FS := ⟨[], []⟩

/-- A filesystem holding only the downloaded archive for `wFilename`. -/
def wFSArch : FS := ⟨[(archivePath wFilename, "PKzipdata")], []⟩

/-- A filesystem holding only the HTML output for `wDi`. -/
def wFSHtml : FS := ⟨[(convHtmlPath wDi, "<html>old</html>")], []⟩

/-- A filesystem holding only the Markdown output for `wDi`. -/
def wFSMd : FS := ⟨[(convMdPath wDi, "# old")], []⟩

/-- A network oracle that refuses the connection. -/
def wNet : String → ReqResult := fun _ => .connError "connection refused"

/-- A network oracle that delivers two chunks then fails mid-stream. -/
def wNetStream : String → ReqResult :=
  fun _ => .response ⟨none, some 9, ["ab", "cd"], some "read timeout"⟩

/-- A network oracle that succeeds with no content-length header. -/
def wNetOk : String → ReqResult :=
  fun _ => .response ⟨none, none, ["abc"], none⟩

/-- A zip oracle that always reports a corrupt archive. -/
def wZip : String → ZipOutcome := fun _ => .badZip

/-- A zip oracle that fails mid-extraction after writing one entry. -/
def wZipErr : String → ZipOutcome :=
  fun _ => .extractError [("a.txt", "partial")] "disk full"

/-- A converter oracle that always raises. -/
def wConv : String → ConvResult := fun _ => .convError "conversion error"

/-- A converter oracle whose exports both succeed. -/
def wConvOk : String → ConvResult :=
  fun _ => .docModel (.ok "<html>doc</html>") (.ok "# doc")

/-- A converter oracle whose markdown export raises. -/
def wConvMdFail : String → ConvResult :=
  fun _ => .docModel (.ok "<html>doc</html>") (.error "markdown export error")

/-! ### Basic lemmas about the filesystem model -/

theorem lookupFile_eraseKey (l : List (String × String)) (p : String) :
    lookupFile (eraseKey l p) p = none := by
  induction l with
  | nil => rfl
  | cons e t ih =>
    by_cases h : e.1 = p
    · simp [eraseKey, h, ih]
    · simp [eraseKey, lookupFile, h, ih]

theorem FS.fileExists_removeFile_self (fs : FS) (p : String) :
    (fs.removeFile p).fileExists p = false := by
  simp [FS.removeFile, FS.fileExists, lookupFile_eraseKey]

theorem FS.fileExists_writeFile_self (fs : FS) (p c : String) :
    (fs.writeFile p c).fileExists p = true := by
  simp [FS.writeFile, FS.fileExists, lookupFile]

theorem FS.pathExists_writeFile_self (fs : FS) (p c : String) :
    (fs.writeFile p c).pathExists p = true := by
  simp [FS.pathExists, FS.fileExists_writeFile_self]

theorem FS.getsize_writeFile_self (fs : FS) (p c : String) :
    (fs.writeFile p c).getsize p = c.length := by
  simp [FS.writeFile, FS.getsize, lookupFile]

theorem FS.fileContent_writeFile_self (fs : FS) (p c : String) :
    (fs.writeFile p c).fileContent p = some c := by
  simp [FS.writeFile, FS.fileContent, lookupFile]

theorem FS.fileExists_eq_false_of_pathExists (fs : FS) (p : String)
    (h : fs.pathExists p = false) : fs.fileExists p = false := by
  simp only [FS.pathExists, Bool.or_eq_false_iff] at h
  exact h.1

theorem memStr_cons_self (l : List String) (p : String) : memStr (p :: l) p = true := by
  simp [memStr]

theorem strPrefixOf_slash_self (p : String) : strPrefixOf (p ++ "/") p = false := by
  rw [Bool.eq_false_iff]
  intro hcon
  have h1 : (p ++ "/").toList <+: p.toList := List.isPrefixOf_iff_prefix.mp hcon
  have h2 : (p ++ "/").toList = p.toList ++ ['/'] := by
    simp [String.toList, String.data_append]
  rw [h2] at h1
  have h3 := h1.length_le
  simp at h3

theorem FS.pathExists_mkdirp_self (fs : FS) (p : String) :
    (fs.mkdirp p).pathExists p = true := by
  unfold FS.mkdirp
  by_cases hm : memStr fs.dirs p = true
  · simp [FS.pathExists, FS.dirExists, hm]
  · simp only [Bool.not_eq_true] at hm
    simp [hm, FS.pathExists, FS.dirExists, memStr_cons_self]

theorem FS.dirNonempty_mkdirp_self (fs : FS) (p : String)
    (h : fs.dirNonempty p = false) : (fs.mkdirp p).dirNonempty p = false := by
  unfold FS.mkdirp
  by_cases hm : memStr fs.dirs p = true
  · simpa [hm] using h
  · simp only [Bool.not_eq_true] at hm
    simp only [FS.dirNonempty, Bool.or_eq_false_iff] at h
    simp [hm, FS.dirNonempty, List.any_cons, strPrefixOf_slash_self, h.1, h.2]

theorem lookupFile_eraseKey_ne (l : List (String × String)) (p q : String)
    (h : q ≠ p) : lookupFile (eraseKey l p) q = lookupFile l q := by
  induction l with
  | nil => rfl
  | cons e t ih =>
    by_cases he : e.1 = p
    · have hpq : ¬ p = q := fun hh => h hh.symm
      simp [eraseKey, he, lookupFile, hpq, ih]
    · simp [eraseKey, lookupFile, he, ih]

theorem FS.fileContent_writeFile_ne (fs : FS) (p c q : String) (h : q ≠ p) :
    (fs.writeFile p c).fileContent q = fs.fileContent q := by
  have hpq : ¬ p = q := fun hh => h hh.symm
  simp [FS.writeFile, FS.fileContent, lookupFile, hpq, lookupFile_eraseKey_ne _ _ _ h]

theorem FS.fileExists_writeFile_ne (fs : FS) (p c q : String) (h : q ≠ p) :
    (fs.writeFile p c).fileExists q = fs.fileExists q := by
  simp only [FS.fileExists]
  rw [show (fs.writeFile p c).files = (fs.writeFile p c).files from rfl]
  have := FS.fileContent_writeFile_ne fs p c q h
  simp only [FS.fileContent] at this
  rw [this]

theorem FS.pathExists_writeFile_ne (fs : FS) (p c q : String) (h : q ≠ p) :
    (fs.writeFile p c).pathExists q = fs.pathExists q := by
  simp only [FS.pathExists, FS.fileExists_writeFile_ne fs p c q h]
  rfl

theorem memStr_cons_mono (l : List String) (d p : String)
    (h : memStr l p = true) : memStr (d :: l) p = true := by
  by_cases hd : d = p <;> simp [memStr, hd, h]

theorem FS.pathExists_mkdirp_mono (fs : FS) (d p : String)
    (h : fs.pathExists p = true) : (fs.mkdirp d).pathExists p = true := by
  unfold FS.mkdirp
  by_cases hm : memStr fs.dirs d = true
  · simpa [hm] using h
  · simp only [Bool.not_eq_true] at hm
    simp only [hm, Bool.false_eq_true, if_false]
    simp only [FS.pathExists, FS.fileExists, FS.dirExists, Bool.or_eq_true] at h ⊢
    rcases h with h | h
    · exact Or.inl h
    · exact Or.inr (memStr_cons_mono _ _ _ h)

theorem FS.fileContent_mkdirp (fs : FS) (d p : String) :
    (fs.mkdirp d).fileContent p = fs.fileContent p := by
  unfold FS.mkdirp
  by_cases hm : memStr fs.dirs d = true <;> simp [hm, FS.fileContent]

/-- The HTML and Markdown output paths live under different
representation folders, so they never coincide. -/
theorem convPaths_ne (d1 d2 : String × String × String) :
    convHtmlPath d1 ≠ convMdPath d2 := by
  intro h
  have h2 : ("artifacts/output/html/" ++ (convOutputBase d1 ++ ".html")).data =
      ("artifacts/output/markdown/" ++ (convOutputBase d2 ++ ".md")).data :=
    congrArg String.data h
  simp only [String.data_append] at h2
  have h3 : ("artifacts/output/html/".data)[17]? =
      ("artifacts/output/markdown/".data)[17]? := by
    have e1 : ("artifacts/output/html/".data ++
        ((convOutputBase d1).data ++ ".html".data))[17]? =
        ("artifacts/output/html/".data)[17]? :=
      List.getElem?_append_left (by decide)
    have e2 : ("artifacts/output/markdown/".data ++
        ((convOutputBase d2).data ++ ".md".data))[17]? =
        ("artifacts/output/markdown/".data)[17]? :=
      List.getElem?_append_left (by decide)
    rw [← e1, ← e2, h2]
  exact absurd h3 (by decide)

/-! ### Helper lemmas about the conversion worker -/

/-- When only the HTML output exists and the markdown export succeeds,
the worker writes the markdown file, does not call the HTML export, and
succeeds.  The HTML export result is arbitrary: it is never consulted. -/
theorem convert_md_only (fs : FS) (conv : String → ConvResult)
    (di : String × String × String) (he : Except String String) (mc : String)
    (hh : fs.pathExists (convHtmlPath di) = true)
    (hm : fs.pathExists (convMdPath di) = false)
    (hcv : conv di.1 = .docModel he (.ok mc)) :
    convert_document_worker fs conv di =
      ⟨⟨di.2.2, .success, .text "Converted"⟩, fs.writeFile (convMdPath di) mc,
        ⟨true, false, true⟩⟩ := by
  unfold convert_document_worker
  simp [hh, hm, hcv]

/-- When only the Markdown output exists and the HTML export succeeds,
the worker writes the HTML file, does not call the markdown export, and
succeeds.  The markdown export result is arbitrary: it is never
consulted. -/
theorem convert_html_only (fs : FS) (conv : String → ConvResult)
    (di : String × String × String) (hc : String) (me : Except String String)
    (hh : fs.pathExists (convHtmlPath di) = false)
    (hm : fs.pathExists (convMdPath di) = true)
    (hcv : conv di.1 = .docModel (.ok hc) me) :
    convert_document_worker fs conv di =
      ⟨⟨di.2.2, .success, .text "Converted"⟩, fs.writeFile (convHtmlPath di) hc,
        ⟨true, true, false⟩⟩ := by
  have hm2 : (fs.writeFile (convHtmlPath di) hc).pathExists (convMdPath di) = true := by
    rw [FS.pathExists_writeFile_ne fs _ hc _ (Ne.symm (convPaths_ne di di))]
    exact hm
  unfold convert_document_worker
  simp [hh, hm, hcv, hm2]

/-- When neither output exists, the HTML export succeeds and the
markdown export raises, the worker fails after having written the HTML
file. -/
theorem convert_md_export_fails (fs : FS) (conv : String → ConvResult)
    (di : String × String × String) (hc e : String)
    (hh : fs.pathExists (convHtmlPath di) = false)
    (hm : fs.pathExists (convMdPath di) = false)
    (hcv : conv di.1 = .docModel (.ok hc) (.error e)) :
    convert_document_worker fs conv di =
      ⟨⟨di.2.2, .fail, .text e⟩, fs.writeFile (convHtmlPath di) hc,
        ⟨true, true, true⟩⟩ := by
  have hm2 : (fs.writeFile (convHtmlPath di) hc).pathExists (convMdPath di) = false := by
    rw [FS.pathExists_writeFile_ne fs _ hc _ (Ne.symm (convPaths_ne di di))]
    exact hm
  unfold convert_document_worker
  simp [hh, hm, hcv, hm2]

/-- On every non-skip path the conversion worker instantiates and
invokes the converter. -/
theorem convert_invoked_of_not_both (fs : FS) (conv : String → ConvResult)
    (di : String × String × String)
    (h : (fs.pathExists (convHtmlPath di) && fs.pathExists (convMdPath di)) = false) :
    (convert_document_worker fs conv di).trace.invokedConverter = true := by
  unfold convert_document_worker
  simp only [h, Bool.false_eq_true, if_false]
  cases conv di.1 with
  | convError e => rfl
  | docModel he me =>
    by_cases hh : fs.pathExists (convHtmlPath di) = true
    · simp only [hh, if_true]
      by_cases hm : fs.pathExists (convMdPath di) = true
      · simp [hm]
      · simp only [Bool.not_eq_true] at hm
        cases me <;> simp [hm]
    · simp only [Bool.not_eq_true] at hh
      simp only [hh, Bool.false_eq_true, if_false]
      cases he with
      | error e => rfl
      | ok hc =>
        by_cases hm : (fs.writeFile (convHtmlPath di) hc).pathExists (convMdPath di) = true
        · simp [hm]
        · simp only [Bool.not_eq_true] at hm
          cases me <;> simp [hm]

/-! ### Helper lemmas about the listing fetcher -/

/-- A successful pattern search yields the last 14 characters of the
href, and they form a TDoc name. -/
theorem tdocSearch_eq_some (h f : String) (hs : tdocSearch h = some f) :
    f = lastChars 14 h ∧ isTdocName f = true := by
  simp only [tdocSearch] at hs
  split at hs
  next hn => exact Option.noConfusion hs
  next hn =>
    split at hs
    next hcond =>
      have hf : f = String.mk (h.toList.drop (h.toList.length - 14)) :=
        (Option.some.inj hs).symm
      subst hf
      refine ⟨rfl, ?_⟩
      have h14 : (h.toList.drop (h.toList.length - 14)).length = 14 := by
        rw [List.length_drop]
        omega
      rw [Bool.and_eq_true, Bool.and_eq_true] at hcond
      obtain ⟨⟨hc1, hc2⟩, hc3⟩ := hcond
      simp only [isTdocName, String.toList, Bool.and_eq_true, decide_eq_true_eq]
      exact ⟨⟨⟨h14, of_decide_eq_true hc1⟩, hc2⟩, of_decide_eq_true hc3⟩
    next hcond => exact Option.noConfusion hs

/-- The link-collecting fold, for an arbitrary accumulator. -/
theorem fetch_links_aux (hrefs : List String) (acc : List String) :
    hrefs.foldl
      (fun links href =>
        match tdocSearch href with
        | some filename => links ++ [filename]
        | none => links)
      acc =
    acc ++ (hrefs.filter endsWithTdoc).map (lastChars 14) := by
  induction hrefs generalizing acc with
  | nil => simp
  | cons hd tl ih =>
    cases hs : tdocSearch hd with
    | none =>
      have hend : endsWithTdoc hd = false := by simp [endsWithTdoc, hs]
      simp only [List.foldl_cons, hs, List.filter_cons, hend, Bool.false_eq_true,
        if_false]
      exact ih acc
    | some f =>
      have hend : endsWithTdoc hd = true := by simp [endsWithTdoc, hs]
      have hf := (tdocSearch_eq_some hd f hs).1
      simp only [List.foldl_cons, hs, List.filter_cons, hend, if_true, List.map_cons]
      rw [ih, hf]
      simp

/-! ### Claims -/

/-- C1: if every idempotence marker is already present (the archive
file exists, the extraction folder exists and is non-empty, and both
output files exist), each of the three workers returns its skip outcome
and leaves the filesystem unchanged, whatever the collaborators would
have answered. -/
theorem C1_pipeline_idempotent (fs : FS) (net : String → ReqResult)
    (writeErr : Option String) (zipOf : String → ZipOutcome)
    (conv : String → ConvResult) (filename : String)
    (di : String × String × String)
    (hdl : fs.pathExists (archivePath filename) = true)
    (hex : fs.pathExists (extractPath filename) = true)
    (hne : fs.dirNonempty (extractPath filename) = true)
    (hh : fs.pathExists (convHtmlPath di) = true)
    (hm : fs.pathExists (convMdPath di) = true) :
    download_file_worker fs net writeErr filename =
      .ok ⟨⟨filename, .skip, .text "Already exists"⟩, fs⟩ ∧
    extract_file_worker fs zipOf filename =
      ⟨⟨filename, .skip, .text "Already extracted"⟩, fs⟩ ∧
    convert_document_worker fs conv di =
      ⟨⟨di.2.2, .skip, .text "Already converted"⟩, fs, ⟨false, false, false⟩⟩ := by
  refine ⟨?_, ?_, ?_⟩
  · simp [download_file_worker, hdl]
  · simp [extract_file_worker, hdl, hex, hne]
  · simp [convert_document_worker, hh, hm]

/-- Witness for C1 at a concrete fully-populated filesystem. -/
theorem C1_pipeline_idempotent_witness :
    download_file_worker wFS wNet none wFilename =
      .ok ⟨⟨wFilename, .skip, .text "Already exists"⟩, wFS⟩ ∧
    extract_file_worker wFS wZip wFilename =
      ⟨⟨wFilename, .skip, .text "Already extracted"⟩, wFS⟩ ∧
    convert_document_worker wFS wConv wDi =
      ⟨⟨wDi.2.2, .skip, .text "Already converted"⟩, wFS, ⟨false, false, false⟩⟩ :=
  C1_pipeline_idempotent wFS wNet none wZip wConv wFilename wDi
    (by decide) (by decide) (by decide) (by decide) (by decide)

/-- C2: whenever a `RequestException` occurs during the download (at
connection, status check, or mid-stream), the worker returns a `fail`
outcome carrying the error text and no file remains at the local path
afterward. -/
theorem C2_download_failure_atomic (fs : FS) (net : String → ReqResult)
    (writeErr : Option String) (filename e : String)
    (hskip : fs.pathExists (archivePath filename) = false)
    (herr : requestErrorOf net writeErr (BASE_URL ++ filename) = some e) :
    (download_file_worker fs net writeErr filename).map
        (fun r => (r.outcome, r.fs.fileExists (archivePath filename))) =
      .ok (⟨filename, .fail, .text e⟩, false) := by
  have hfe := FS.fileExists_eq_false_of_pathExists fs _ hskip
  unfold download_file_worker
  cases hnet : net (BASE_URL ++ filename) with
  | connError e0 =>
    simp only [requestErrorOf, hnet, Option.some.injEq] at herr
    subst herr
    simp [hskip, hfe, Except.map]
  | response r =>
    cases hst : r.statusError with
    | some e0 =>
      simp only [requestErrorOf, hnet, hst, Option.some.injEq] at herr
      subst herr
      simp [hskip, hfe, hst, Except.map]
    | none =>
      cases hw : writeErr with
      | some w =>
        simp only [requestErrorOf, hnet, hst, hw] at herr
        exact Option.noConfusion herr
      | none =>
        cases hstream : r.streamError with
        | none =>
          simp only [requestErrorOf, hnet, hst, hw, hstream] at herr
          exact Option.noConfusion herr
        | some e0 =>
          simp only [requestErrorOf, hnet, hst, hw, hstream, Option.some.injEq] at herr
          subst herr
          simp [hskip, hst, hw, hstream, FS.pathExists_writeFile_self,
            FS.fileExists_removeFile_self, Except.map]

/-- Witness for C2: a download that fails mid-stream after two chunks
were already written; the partial file is removed. -/
theorem C2_download_failure_atomic_witness :
    (download_file_worker wFS0 wNetStream none wFilename).map
        (fun r => (r.outcome, r.fs.fileExists (archivePath wFilename))) =
      .ok (⟨wFilename, .fail, .text "read timeout"⟩, false) :=
  C2_download_failure_atomic wFS0 wNetStream none wFilename "read timeout"
    (by decide) (by decide)

/-- C9: only a `requests.RequestException` is converted into a `fail`
outcome by the download worker; an `OSError` raised while opening the
local file propagates out of the worker uncaught.  The extraction and
conversion workers, by contrast, catch every exception at the task
boundary and return a `fail` outcome. -/
theorem C9_exception_boundaries (fs : FS) (net : String → ReqResult)
    (filename e : String) (r : HttpResponse)
    (zipOf : String → ZipOutcome) (conv : String → ConvResult)
    (di : String × String × String) :
    (fs.pathExists (archivePath filename) = false →
      net (BASE_URL ++ filename) = .response r → r.statusError = none →
      download_file_worker fs net (some e) filename = .error e) ∧
    (∀ w m, fs.pathExists (archivePath filename) = true →
      (fs.pathExists (extractPath filename) &&
        fs.dirNonempty (extractPath filename)) = false →
      zipOf ((fs.fileContent (archivePath filename)).getD "") = .extractError w m →
      (extract_file_worker fs zipOf filename).outcome = ⟨filename, .fail, .text m⟩) ∧
    (∀ m, (fs.pathExists (convHtmlPath di) &&
        fs.pathExists (convMdPath di)) = false →
      conv di.1 = .convError m →
      (convert_document_worker fs conv di).outcome = ⟨di.2.2, .fail, .text m⟩) := by
  refine ⟨?_, ?_, ?_⟩
  · intro hskip hnet hst
    unfold download_file_worker
    simp [hskip, hnet, hst]
  · intro w m hdl hsk hzip
    unfold extract_file_worker
    simp [hdl, hsk, hzip]
  · intro m hsk hcv
    unfold convert_document_worker
    simp [hsk, hcv]

/-- Witness for C9: a permission error at the local write propagates;
a mid-extraction error and a converter error are caught as `fail`. -/
theorem C9_exception_boundaries_witness :
    download_file_worker wFS0 wNetOk (some "Permission denied") wFilename =
      .error "Permission denied" ∧
    (extract_file_worker wFSArch wZipErr wFilename).outcome =
      ⟨wFilename, .fail, .text "disk full"⟩ ∧
    (convert_document_worker wFSArch wConv wDi).outcome =
      ⟨wDi.2.2, .fail, .text "conversion error"⟩ :=
  ⟨(C9_exception_boundaries wFS0 wNetOk wFilename "Permission denied"
      ⟨none, none, ["abc"], none⟩ wZipErr wConv wDi).1 (by decide) rfl rfl,
   (C9_exception_boundaries wFSArch wNetOk wFilename "Permission denied"
      ⟨none, none, ["abc"], none⟩ wZipErr wConv wDi).2.1 [("a.txt", "partial")]
     "disk full" (by decide) (by decide) rfl,
   (C9_exception_boundaries wFSArch wNetOk wFilename "Permission denied"
      ⟨none, none, ["abc"], none⟩ wZipErr wConv wDi).2.2 "conversion error"
     (by decide) rfl⟩

/-- C3: the conversion worker returns the skip outcome (without ever
invoking the converter) exactly when both output files exist; when only
one of the two exists and the needed export succeeds, the missing
representation is written, the present one is neither re-rendered (its
export is not called) nor rewritten (its content is unchanged). -/
theorem C3_partial_pair_not_skip (fs : FS) (conv : String → ConvResult)
    (di : String × String × String) :
    (convert_document_worker fs conv di =
        ⟨⟨di.2.2, .skip, .text "Already converted"⟩, fs, ⟨false, false, false⟩⟩ ↔
      fs.pathExists (convHtmlPath di) = true ∧
        fs.pathExists (convMdPath di) = true) ∧
    (∀ he mc, fs.pathExists (convHtmlPath di) = true →
      fs.pathExists (convMdPath di) = false →
      conv di.1 = .docModel he (.ok mc) →
      convert_document_worker fs conv di =
        ⟨⟨di.2.2, .success, .text "Converted"⟩, fs.writeFile (convMdPath di) mc,
          ⟨true, false, true⟩⟩ ∧
      (fs.writeFile (convMdPath di) mc).fileContent (convHtmlPath di) =
        fs.fileContent (convHtmlPath di)) ∧
    (∀ hc me, fs.pathExists (convHtmlPath di) = false →
      fs.pathExists (convMdPath di) = true →
      conv di.1 = .docModel (.ok hc) me →
      convert_document_worker fs conv di =
        ⟨⟨di.2.2, .success, .text "Converted"⟩, fs.writeFile (convHtmlPath di) hc,
          ⟨true, true, false⟩⟩ ∧
      (fs.writeFile (convHtmlPath di) hc).fileContent (convMdPath di) =
        fs.fileContent (convMdPath di)) := by
  refine ⟨⟨?_, ?_⟩, ?_, ?_⟩
  · intro heq
    by_cases hb : (fs.pathExists (convHtmlPath di) &&
        fs.pathExists (convMdPath di)) = true
    · exact Bool.and_eq_true _ _ |>.mp hb
    · rw [Bool.not_eq_true] at hb
      have hinv := convert_invoked_of_not_both fs conv di hb
      rw [heq] at hinv
      exact Bool.noConfusion hinv
  · rintro ⟨h1, h2⟩
    unfold convert_document_worker
    simp [h1, h2]
  · intro he mc h1 h2 hcv
    exact ⟨convert_md_only fs conv di he mc h1 h2 hcv,
      FS.fileContent_writeFile_ne fs _ mc _ (convPaths_ne di di)⟩
  · intro hc me h1 h2 hcv
    exact ⟨convert_html_only fs conv di hc me h1 h2 hcv,
      FS.fileContent_writeFile_ne fs _ hc _ (Ne.symm (convPaths_ne di di))⟩

/-- Witness for C3: the skip case on a fully converted filesystem, the
markdown-only regeneration, and the HTML-only regeneration. -/
theorem C3_partial_pair_not_skip_witness :
    convert_document_worker wFS wConvOk wDi =
      ⟨⟨wDi.2.2, .skip, .text "Already converted"⟩, wFS, ⟨false, false, false⟩⟩ ∧
    (convert_document_worker wFSHtml wConvOk wDi =
      ⟨⟨wDi.2.2, .success, .text "Converted"⟩,
        wFSHtml.writeFile (convMdPath wDi) "# doc", ⟨true, false, true⟩⟩ ∧
      (wFSHtml.writeFile (convMdPath wDi) "# doc").fileContent (convHtmlPath wDi) =
        wFSHtml.fileContent (convHtmlPath wDi)) ∧
    (convert_document_worker wFSMd wConvOk wDi =
      ⟨⟨wDi.2.2, .success, .text "Converted"⟩,
        wFSMd.writeFile (convHtmlPath wDi) "<html>doc</html>", ⟨true, true, false⟩⟩ ∧
      (wFSMd.writeFile (convHtmlPath wDi) "<html>doc</html>").fileContent (convMdPath wDi) =
        wFSMd.fileContent (convMdPath wDi)) :=
  ⟨(C3_partial_pair_not_skip wFS wConvOk wDi).1.mpr ⟨by decide, by decide⟩,
   (C3_partial_pair_not_skip wFSHtml wConvOk wDi).2.1 (.ok "<html>doc</html>")
     "# doc" (by decide) (by decide) rfl,
   (C3_partial_pair_not_skip wFSMd wConvOk wDi).2.2 "<html>doc</html>"
     (.ok "# doc") (by decide) (by decide) rfl⟩

/-- C10: the HTML output is written before the Markdown output; when
the markdown export raises after the HTML file was written, the worker
returns `fail` with the error text, the HTML file stays on disk and no
markdown file exists, and a subsequent run with a working converter
regenerates only the markdown output (the HTML export is not called
again). -/
theorem C10_html_kept_on_md_failure (fs : FS) (conv conv2 : String → ConvResult)
    (di : String × String × String) (hc e mc : String)
    (he2 : Except String String)
    (hh : fs.pathExists (convHtmlPath di) = false)
    (hm : fs.pathExists (convMdPath di) = false)
    (hcv : conv di.1 = .docModel (.ok hc) (.error e))
    (hcv2 : conv2 di.1 = .docModel he2 (.ok mc)) :
    convert_document_worker fs conv di =
      ⟨⟨di.2.2, .fail, .text e⟩, fs.writeFile (convHtmlPath di) hc,
        ⟨true, true, true⟩⟩ ∧
    (fs.writeFile (convHtmlPath di) hc).fileContent (convHtmlPath di) = some hc ∧
    (fs.writeFile (convHtmlPath di) hc).fileExists (convMdPath di) = false ∧
    convert_document_worker (fs.writeFile (convHtmlPath di) hc) conv2 di =
      ⟨⟨di.2.2, .success, .text "Converted"⟩,
        (fs.writeFile (convHtmlPath di) hc).writeFile (convMdPath di) mc,
        ⟨true, false, true⟩⟩ := by
  have hne : convMdPath di ≠ convHtmlPath di := Ne.symm (convPaths_ne di di)
  have hfs1h : (fs.writeFile (convHtmlPath di) hc).pathExists (convHtmlPath di) = true :=
    FS.pathExists_writeFile_self fs _ hc
  have hfs1m : (fs.writeFile (convHtmlPath di) hc).pathExists (convMdPath di) = false := by
    rw [FS.pathExists_writeFile_ne fs _ hc _ hne]; exact hm
  refine ⟨convert_md_export_fails fs conv di hc e hh hm hcv,
    FS.fileContent_writeFile_self fs _ hc, ?_,
    convert_md_only (fs.writeFile (convHtmlPath di) hc) conv2 di he2 mc
      hfs1h hfs1m hcv2⟩
  rw [FS.fileExists_writeFile_ne fs _ hc _ hne]
  exact FS.fileExists_eq_false_of_pathExists fs _ hm

/-- Witness for C10: on an empty filesystem, a converter whose markdown
export raises leaves exactly the HTML file; a re-run with a working
converter adds the markdown file without re-exporting the HTML. -/
theorem C10_html_kept_on_md_failure_witness :
    convert_document_worker wFS0 wConvMdFail wDi =
      ⟨⟨wDi.2.2, .fail, .text "markdown export error"⟩,
        wFS0.writeFile (convHtmlPath wDi) "<html>doc</html>",
        ⟨true, true, true⟩⟩ ∧
    (wFS0.writeFile (convHtmlPath wDi) "<html>doc</html>").fileContent
      (convHtmlPath wDi) = some "<html>doc</html>" ∧
    (wFS0.writeFile (convHtmlPath wDi) "<html>doc</html>").fileExists
      (convMdPath wDi) = false ∧
    convert_document_worker
        (wFS0.writeFile (convHtmlPath wDi) "<html>doc</html>") wConvOk wDi =
      ⟨⟨wDi.2.2, .success, .text "Converted"⟩,
        (wFS0.writeFile (convHtmlPath wDi) "<html>doc</html>").writeFile
          (convMdPath wDi) "# doc",
        ⟨true, false, true⟩⟩ :=
  C10_html_kept_on_md_failure wFS0 wConvMdFail wConvOk wDi "<html>doc</html>"
    "markdown export error" "# doc" (.ok "<html>doc</html>")
    (by decide) (by decide) rfl rfl

/-- C5: the skip checks of the extraction worker, in order: a missing
archive yields skip "Not downloaded" regardless of the destination
state of the destination folder; otherwise an existing non-empty destination folder
yields skip "Already extracted"; both skips leave the filesystem
unchanged. -/
theorem C5_extract_skip_order (fs : FS) (zipOf : String → ZipOutcome)
    (filename : String) :
    (fs.pathExists (archivePath filename) = false →
      extract_file_worker fs zipOf filename =
        ⟨⟨filename, .skip, .text "Not downloaded"⟩, fs⟩) ∧
    (fs.pathExists (archivePath filename) = true →
      fs.pathExists (extractPath filename) = true →
      fs.dirNonempty (extractPath filename) = true →
      extract_file_worker fs zipOf filename =
        ⟨⟨filename, .skip, .text "Already extracted"⟩, fs⟩) := by
  constructor
  · intro h; simp [extract_file_worker, h]
  · intro h1 h2 h3; simp [extract_file_worker, h1, h2, h3]

/-- Witness for C5: both skip cases at concrete filesystems. -/
theorem C5_extract_skip_order_witness :
    extract_file_worker wFS0 wZip wFilename =
      ⟨⟨wFilename, .skip, .text "Not downloaded"⟩, wFS0⟩ ∧
    extract_file_worker wFS wZip wFilename =
      ⟨⟨wFilename, .skip, .text "Already extracted"⟩, wFS⟩ :=
  ⟨(C5_extract_skip_order wFS0 wZip wFilename).1 (by decide),
   (C5_extract_skip_order wFS wZip wFilename).2 (by decide) (by decide) (by decide)⟩

/-- C6: when the archive exists, the destination folder is empty (or
absent) and the archive is not a valid ZIP, the worker fails with
"Invalid ZIP file" and leaves the destination folder existing but
empty, so a re-run attempts the extraction again instead of skipping;
any other unpacking error is returned as a `fail` outcome with the
error text. -/
theorem C6_corrupt_archive (fs : FS) (zipOf : String → ZipOutcome)
    (filename : String)
    (hdl : fs.pathExists (archivePath filename) = true)
    (hne : fs.dirNonempty (extractPath filename) = false) :
    (zipOf ((fs.fileContent (archivePath filename)).getD "") = .badZip →
      extract_file_worker fs zipOf filename =
        ⟨⟨filename, .fail, .text "Invalid ZIP file"⟩,
          fs.mkdirp (extractPath filename)⟩ ∧
      (fs.mkdirp (extractPath filename)).pathExists (extractPath filename) = true ∧
      (fs.mkdirp (extractPath filename)).dirNonempty (extractPath filename) = false ∧
      (extract_file_worker (fs.mkdirp (extractPath filename)) zipOf filename).outcome =
        ⟨filename, .fail, .text "Invalid ZIP file"⟩) ∧
    (∀ w m,
      zipOf ((fs.fileContent (archivePath filename)).getD "") = .extractError w m →
      (extract_file_worker fs zipOf filename).outcome =
        ⟨filename, .fail, .text m⟩) := by
  constructor
  · intro hzip
    refine ⟨?_, FS.pathExists_mkdirp_self fs _, FS.dirNonempty_mkdirp_self fs _ hne, ?_⟩
    · simp [extract_file_worker, hdl, hne, hzip]
    · have h1 : (fs.mkdirp (extractPath filename)).pathExists (archivePath filename) = true :=
        FS.pathExists_mkdirp_mono fs _ _ hdl
      have h2 : (fs.mkdirp (extractPath filename)).dirNonempty (extractPath filename) = false :=
        FS.dirNonempty_mkdirp_self fs _ hne
      have h3 : (fs.mkdirp (extractPath filename)).fileContent (archivePath filename) =
          fs.fileContent (archivePath filename) :=
        FS.fileContent_mkdirp fs _ _
      simp [extract_file_worker, h1, h2, h3, hzip]
  · intro w m hzip
    simp [extract_file_worker, hdl, hne, hzip]

/-- Witness for C6: a corrupt archive and a mid-extraction error on a
filesystem holding only the downloaded archive. -/
theorem C6_corrupt_archive_witness :
    (extract_file_worker wFSArch wZip wFilename =
      ⟨⟨wFilename, .fail, .text "Invalid ZIP file"⟩,
        wFSArch.mkdirp (extractPath wFilename)⟩ ∧
    (wFSArch.mkdirp (extractPath wFilename)).pathExists (extractPath wFilename) = true ∧
    (wFSArch.mkdirp (extractPath wFilename)).dirNonempty (extractPath wFilename) = false ∧
    (extract_file_worker (wFSArch.mkdirp (extractPath wFilename)) wZip wFilename).outcome =
      ⟨wFilename, .fail, .text "Invalid ZIP file"⟩) ∧
    (extract_file_worker wFSArch wZipErr wFilename).outcome =
      ⟨wFilename, .fail, .text "disk full"⟩ :=
  ⟨(C6_corrupt_archive wFSArch wZip wFilename (by decide) (by decide)).1 rfl,
   (C6_corrupt_archive wFSArch wZipErr wFilename (by decide) (by decide)).2
     [("a.txt", "partial")] "disk full" rfl⟩

/-- C7: a fetch error exits with code 1 before any stage runs; a fetch
that matches zero identifiers exits with code 1 before any stage runs;
otherwise the stages run and the process exits 0, whatever per-item
outcomes the stages produced. -/
theorem C7_exit_codes (resp : Except String (List String))
    (dlOuts exOuts cvOuts : List Outcome) :
    (∀ e, resp = .error e →
      main_exit resp dlOuts exOuts cvOuts = ⟨1, false⟩) ∧
    (∀ hrefs, resp = .ok hrefs → fetch_links hrefs = [] →
      main_exit resp dlOuts exOuts cvOuts = ⟨1, false⟩) ∧
    (∀ hrefs, resp = .ok hrefs → fetch_links hrefs ≠ [] →
      main_exit resp dlOuts exOuts cvOuts = ⟨0, true⟩) := by
  refine ⟨?_, ?_, ?_⟩
  · rintro e rfl; rfl
  · rintro hrefs rfl hnil
    simp [main_exit, fetch_document_list, List.isEmpty_iff, hnil]
  · rintro hrefs rfl hnil
    simp [main_exit, fetch_document_list, List.isEmpty_iff, hnil]

/-- Witness for C7: a network error, a zero-match page, and a normal
run whose download stage recorded a failure. -/
theorem C7_exit_codes_witness :
    main_exit (.error "connection refused") [] [] [] = ⟨1, false⟩ ∧
    main_exit (.ok ["foo.zip"]) [] [] [] = ⟨1, false⟩ ∧
    main_exit (.ok ["a/R1-2301234.zip"])
      [⟨"R1-2301234.zip", .fail, .text "404"⟩] [] [] = ⟨0, true⟩ :=
  ⟨(C7_exit_codes (.error "connection refused") [] [] []).1 "connection refused" rfl,
   (C7_exit_codes (.ok ["foo.zip"]) [] [] []).2.1 ["foo.zip"] rfl (by decide),
   (C7_exit_codes (.ok ["a/R1-2301234.zip"])
      [⟨"R1-2301234.zip", .fail, .text "404"⟩] [] []).2.2
     ["a/R1-2301234.zip"] rfl (by decide)⟩

/-- Counterexample to C4 as stated: on a page whose hrefs are
`a/R1-2301234.zip`, `xR1-2301234.zip` and `b/R1-2301234.zip`, the code
returns three entries — the duplicate filename is not collapsed to its
first occurrence, and the href whose trailing path segment is
`xR1-2301234.zip` (which is not itself of the form `R1-` + 7 digits +
`.zip`) still contributes its matching 14-character suffix. -/
theorem C4_counterexample :
    fetch_links ["a/R1-2301234.zip", "xR1-2301234.zip", "b/R1-2301234.zip"] =
      ["R1-2301234.zip", "R1-2301234.zip", "R1-2301234.zip"] ∧
    fetchSpecStated ["a/R1-2301234.zip", "xR1-2301234.zip", "b/R1-2301234.zip"] =
      ["R1-2301234.zip"] ∧
    fetch_links ["a/R1-2301234.zip", "xR1-2301234.zip", "b/R1-2301234.zip"] ≠
      fetchSpecStated ["a/R1-2301234.zip", "xR1-2301234.zip", "b/R1-2301234.zip"] := by
  refine ⟨by decide, by decide, by decide⟩

/-- C4 amended: `fetch_document_list` returns, for each href that ends
with the pattern `R1-` + exactly seven digits + `.zip`, the matched
14-character bare filename (not the full URL), in document order with
one entry per matching href (duplicates are not collapsed); every
returned entry is itself of the TDoc-name form, and hrefs not ending
with the pattern (wrong digit count, other names) contribute nothing. -/
theorem C4_fetch_filter (hrefs : List String) :
    fetch_links hrefs = (hrefs.filter endsWithTdoc).map (lastChars 14) ∧
    ∀ f ∈ fetch_links hrefs, isTdocName f = true := by
  have hmain : fetch_links hrefs = (hrefs.filter endsWithTdoc).map (lastChars 14) := by
    simpa using fetch_links_aux hrefs []
  refine ⟨hmain, ?_⟩
  intro f hf
  rw [hmain] at hf
  simp only [List.mem_map, List.mem_filter] at hf
  obtain ⟨h, ⟨hmem, hend⟩, rfl⟩ := hf
  simp only [endsWithTdoc, Option.isSome_iff_exists] at hend
  obtain ⟨g, hg⟩ := hend
  obtain ⟨hfe, hname⟩ := tdocSearch_eq_some h g hg
  rw [← hfe]
  exact hname

/-- Witness for C4 on a concrete page with one matching and one
non-matching href. -/
theorem C4_fetch_filter_witness :
    fetch_links ["a/R1-2301234.zip", "foo.zip"] =
      (["a/R1-2301234.zip", "foo.zip"].filter endsWithTdoc).map (lastChars 14) ∧
    isTdocName "R1-2301234.zip" = true :=
  ⟨(C4_fetch_filter ["a/R1-2301234.zip", "foo.zip"]).1,
   (C4_fetch_filter ["a/R1-2301234.zip", "foo.zip"]).2 "R1-2301234.zip" (by decide)⟩

/-- Counterexample to C8 as stated: a response whose content-length
header is present with value 0 while the body carries 5 bytes.  The
code takes the size from the file written on disk (5 bytes); the
claim, read as "from the header whenever it is present", would give
0. -/
theorem C8_counterexample :
    (download_file_worker wFS0
        (fun _ => .response ⟨none, some 0, ["hello"], none⟩)
        none wFilename).map (fun r => r.outcome.message) = .ok (.sizeMB 5) ∧
    claimedSizeSource (some 0) 5 = 0 ∧ (5 : Nat) ≠ 0 := by
  refine ⟨rfl, rfl, by decide⟩

/-- C8 amended: on a successful download the success message carries
the byte count taken from the content-length header when the header is
present with a positive value, and otherwise the number of bytes
actually written to the local file. -/
theorem C8_success_size (fs : FS) (net : String → ReqResult)
    (filename : String) (r : HttpResponse)
    (hskip : fs.pathExists (archivePath filename) = false)
    (hnet : net (BASE_URL ++ filename) = .response r)
    (hst : r.statusError = none) (hstream : r.streamError = none) :
    download_file_worker fs net none filename =
      .ok ⟨⟨filename, .success,
          .sizeMB (if r.contentLength.getD 0 > 0 then r.contentLength.getD 0
            else (String.join r.chunks).length)⟩,
        fs.writeFile (archivePath filename) (String.join r.chunks)⟩ := by
  unfold download_file_worker
  rw [hnet]
  simp only [hskip, Bool.false_eq_true, if_false, hst, hstream]
  rw [FS.getsize_writeFile_self]

/-- Witness for C8: a successful download with no content-length
header; the size comes from the three bytes written. -/
theorem C8_success_size_witness :
    download_file_worker wFS0 wNetOk none wFilename =
      .ok ⟨⟨wFilename, .success,
          .sizeMB (if (none : Option Nat).getD 0 > 0 then (none : Option Nat).getD 0
            else (String.join ["abc"]).length)⟩,
        wFS0.writeFile (archivePath wFilename) (String.join ["abc"])⟩ :=
  C8_success_size wFS0 wNetOk wFilename ⟨none, none, ["abc"], none⟩
    (by decide) rfl rfl rfl

end TdocPortal
